import Mathlib

/-
Verification of the conversation-state and context-budget manager of the
Ollama-Chat-Mobile repository (src/rhea.py, src/api.py).

The Python code is shallowly embedded: `ChatManager`'s mutable state becomes
the structure `ChatState`, each method becomes a pure function returning the
new state together with a success flag (`false` models a raised Python
exception; the returned state is the state as mutated up to the raise point,
matching Python's in-place mutation semantics).  Python ints are `Nat` (all
quantities involved are non-negative), `len` on a string is `String.length`
(both count unicode code points), and the two floating-point comparisons in
the source (`total_length > context_limit * 0.75` and
`current_tokens + message_tokens <= (context_limit * target)/100`) are
modelled by the exact rational comparisons `4 * total > 3 * limit` and
`100 * (cur + mt) <= limit * target`, which agree with the float comparisons
at all realistic magnitudes (0.75 is exactly representable; the /100 case is
exact on the integers where the comparison is decided).
-/

namespace OllamaChat

/-- `CharacterProfile` dataclass of rhea.py. -/
structure CharacterProfile where
  name : String
  traits : List String
  backstory : String
  goals : String
  personality : String
deriving DecidableEq

/-- A conversation message: the `{"role": ..., "content": ...}` dicts of the source. -/
structure Msg where
  role : String
  content : String
deriving DecidableEq

instance : Inhabited Msg := ⟨⟨"", ""⟩⟩

/-- The mutable state of `ChatManager` (rhea.py lines 171-191) relevant to the
conversation-state component. -/
structure ChatState where
  conversation : List Msg
  key_events : List String
  character_profiles : List (String × CharacterProfile)
  current_assistant_profile : Option CharacterProfile
  current_user_profile : Option CharacterProfile
  context_limit : Nat
  message_count : Nat
  last_cleanup : Nat
deriving DecidableEq

/-- Python's `sep.join(l)`. -/
def joinWith (sep : String) : List String → String
  | [] => ""
  | [x] => x
  | x :: xs => x ++ sep ++ joinWith sep xs

/-- `ChatManager._format_key_events` (rhea.py lines 230-234). -/
def formatKeyEvents (events : List String) : String :=
  if events = [] then "No significant events yet."
  else joinWith "\n" (events.map (fun e => "- " ++ e))

/-- `ChatManager._create_system_message` (rhea.py lines 198-222).
`none` models the `AttributeError` raised by
`self.current_user_profile.name` when the assistant profile is present but
the user profile is `None` (the f-string dereferences it unconditionally).
The template string reproduces the Python triple-quoted f-string byte for
byte, including its 8-space indentation and the trailing-whitespace line. -/
def createSystemMessage (assistantP userP : Option CharacterProfile)
    (events : List String) : Option Msg :=
  match assistantP with
  | none => some ⟨"system", "Basic AI assistant mode."⟩
  | some a =>
    match userP with
    | none => none
    | some u => some ⟨"system",
        "You are " ++ a.name ++ ". Fully embody this character:\n\n        Your Identity:\n        - Name: "
        ++ a.name ++ "\n        - Traits: " ++ joinWith ", " a.traits
        ++ "\n        - Backstory: " ++ a.backstory
        ++ "\n        - Goals: " ++ a.goals
        ++ "\n        - Personality: " ++ a.personality
        ++ "\n\n        Your Context:\n        - You are interacting with: " ++ u.name
        ++ "\n        - Their traits: " ++ joinWith ", " u.traits
        ++ "\n        - Their backstory: " ++ u.backstory
        ++ "\n        \n        Recent Events:\n        " ++ formatKeyEvents events
        ++ "\n\n        Stay completely in character, using all elements from your profile to shape your responses."⟩

/-- `sum(len(msg["content"]) for msg in conversation)` (rhea.py line 248). -/
def totalLen (msgs : List Msg) : Nat := (msgs.map (fun m => m.content.length)).sum

/-- Python's `l[-n:]` for `n > 0` (the slice index is clamped at the left end). -/
def lastSlice (n : Nat) (l : List α) : List α := l.drop (l.length - n)

/-- Python's `l.insert(1, x)` (on a list of length < 2 the index clamps to the end). -/
def insertAfterHead (l : List α) (x : α) : List α :=
  match l with
  | [] => [x]
  | h :: t => h :: x :: t

/-- The content of the synthetic summarization marker (rhea.py line 256). -/
def summaryContent (aName uName : String) : String :=
  "Previous conversation between " ++ aName ++ " and " ++ uName ++ " has been summarized."

/-- The `if role == "user" and ... elif role == "assistant" and ... else` chain
of rhea.py lines 238-243 computing `profile_context`. -/
def profileContext (s : ChatState) (role content : String) : String :=
  if role = "user" then
    match s.current_user_profile with
    | some p => p.name ++ ":\n" ++ content
    | none =>
      if role = "assistant" then
        match s.current_assistant_profile with
        | some p => p.name ++ ":\n" ++ content
        | none => content
      else content
  else if role = "assistant" then
    match s.current_assistant_profile with
    | some p => p.name ++ ":\n" ++ content
    | none => content
  else content

/-- `ChatManager.add_to_conversation` (rhea.py lines 236-258).
The Boolean is the success flag: `false` models the `AttributeError` raised
while building the summary message's f-string when a current profile is
`None`; at that point `self.conversation` has already been reassigned to the
trimmed list, so the returned state carries that partial mutation. -/
def add_to_conversation (s : ChatState) (role content : String) : ChatState × Bool :=
  let new_message : Msg := ⟨role, profileContext s role content⟩
  let conv := s.conversation ++ [new_message]
  if 4 * totalLen conv > 3 * s.context_limit then
    let num_msgs_to_keep := max 4 (s.context_limit / 1000)
    let trimmed := conv.headI :: lastSlice num_msgs_to_keep conv
    if 2 < trimmed.length then
      match s.current_assistant_profile, s.current_user_profile with
      | some a, some u =>
          ({s with conversation :=
              insertAfterHead trimmed ⟨"system", summaryContent a.name u.name⟩}, true)
      | _, _ => ({s with conversation := trimmed}, false)
    else ({s with conversation := trimmed}, true)
  else ({s with conversation := conv}, true)

/-- `ChatManager.add_key_event` (rhea.py lines 224-228).  The event is appended
first; then `self.conversation[0] = self._create_system_message()` either
raises inside the composer (user profile absent with assistant present) or
raises `IndexError` on an empty conversation; in both failure cases the
event has already been appended. -/
def add_key_event (s : ChatState) (event : String) : ChatState × Bool :=
  let s1 := {s with key_events := s.key_events ++ [event]}
  match createSystemMessage s1.current_assistant_profile s1.current_user_profile s1.key_events with
  | none => (s1, false)
  | some m =>
    match s1.conversation with
    | [] => (s1, false)
    | _ :: t => ({s1 with conversation := m :: t}, true)

/-- `dict.get(role)` over the profile store (rhea.py line 310). -/
def lookupRole (profiles : List (String × CharacterProfile)) (role : String) :
    Option CharacterProfile :=
  match profiles.find? (fun p => p.1 = role) with
  | some p => some p.2
  | none => none

/-- `ChatManager.set_current_profiles` (rhea.py lines 308-312): only the two
current-profile pointers change; the conversation is untouched. -/
def set_current_profiles (s : ChatState) (user_role assistant_role : String) : ChatState :=
  {s with current_user_profile := lookupRole s.character_profiles user_role,
          current_assistant_profile := lookupRole s.character_profiles assistant_role}

/-- `ChatManager._initialize_conversation` (rhea.py lines 193-196): compose
first, then assign; on a composer raise the conversation is unchanged. -/
def initialize_conversation (s : ChatState) : ChatState × Bool :=
  match createSystemMessage s.current_assistant_profile s.current_user_profile s.key_events with
  | none => (s, false)
  | some m => ({s with conversation := [m]}, true)

/-- The `/api/clear` route (api.py lines 164-180): the conversation is first
set to `[]`, then the composer runs; if it raises, the handler returns an
error payload and the conversation is left empty. -/
def clear_conversation (s : ChatState) : ChatState × Bool :=
  let s1 := {s with conversation := ([] : List Msg)}
  match createSystemMessage s1.current_assistant_profile s1.current_user_profile s1.key_events with
  | none => (s1, false)
  | some m => ({s1 with conversation := [m]}, true)

/-- `ChatManager.periodic_cleanup` (rhea.py lines 341-355). -/
def periodic_cleanup (s : ChatState) : ChatState × Bool :=
  let s1 := {s with message_count := s.message_count + 1}
  if 50 ≤ s1.message_count - s1.last_cleanup then
    let s2 := {s1 with last_cleanup := s1.message_count}
    match s2.conversation with
    | [] => (s2, false)
    | hd :: _ =>
      let msgs_to_keep := max 4 (s2.conversation.length / 4)
      ({s2 with conversation := hd :: lastSlice msgs_to_keep s2.conversation}, true)
  else (s1, true)

/-- Counts the maximal whitespace-free runs of a character list; `inWord`
records whether the previous character was part of a word. -/
def wordCountAux : List Char → Bool → Nat
  | [], _ => 0
  | c :: cs, inWord =>
    if c.isWhitespace then wordCountAux cs false
    else (if inWord then 0 else 1) + wordCountAux cs true

/-- `len(content.split())`: number of maximal whitespace-free runs. -/
def wordCount (str : String) : Nat := wordCountAux str.data false

/-- The `for message in reversed(conversation[1:]): ... else break` loop of
`trim_context` (api.py lines 206-212); `acc` is `new_conversation`,
`cur` is `current_tokens`.  The comparison
`current_tokens + message_tokens <= (context_limit * target)/100` is modelled
exactly as `100 * (cur + mt) ≤ limit * target`. -/
def trimLoop (limit target : Nat) : List Msg → List Msg → Nat → List Msg
  | [], acc, _ => acc
  | m :: ms, acc, cur =>
    let mt := wordCount m.content
    if 100 * (cur + mt) ≤ limit * target then
      trimLoop limit target ms (insertAfterHead acc m) (cur + mt)
    else acc

/-- The `/api/context/trim` route (api.py lines 192-220).  `false` models the
`IndexError` of `conversation[0]` on an empty conversation. -/
def trim_context (s : ChatState) (target_percentage : Nat) : ChatState × Bool :=
  match s.conversation with
  | [] => (s, false)
  | sys :: rest =>
    ({s with conversation :=
        (trimLoop s.context_limit target_percentage rest.reverse [sys]
          (wordCount sys.content))}, true)

/-- The buffer operations quantified over by the invariant claims. -/
inductive Op where
  | clear : Op
  | append (role content : String) : Op
  | cleanup : Op
  | trim (target_percentage : Nat) : Op

/-- One operation applied to the state (keeping the post-raise state on failure,
as the Python handlers do: they catch, report, and continue). -/
def stepOp (s : ChatState) : Op → ChatState × Bool
  | Op.clear => clear_conversation s
  | Op.append role content => add_to_conversation s role content
  | Op.cleanup => periodic_cleanup s
  | Op.trim t => trim_context s t

/-- Run a sequence of buffer operations. -/
def runOps (s : ChatState) (ops : List Op) : ChatState :=
  ops.foldl (fun st op => (stepOp st op).1) s

/-- The composer succeeds exactly when the profile pair is not
(assistant present, user absent); this is the condition under which no
`AttributeError` occurs. -/
def profilesOK (s : ChatState) : Prop :=
  s.current_assistant_profile.isSome → s.current_user_profile.isSome

/-- The invariant claimed by the spec: non-empty buffer whose head is a
system message. -/
def convInv (s : ChatState) : Prop :=
  s.conversation ≠ [] ∧ s.conversation.headI.role = "system"

/-- The compaction policy exactly as the specification sentence describes it:
after pushing the formatted message onto the buffer, if the total character
length exceeds `contextLimit * 0.75` the buffer becomes `[buffer[0]]` plus the
last `max 4 (contextLimit / 1000)` messages (order preserved), and when the
result has more than 2 elements a synthetic summarization marker is inserted
at index 1; otherwise the buffer is just the extended one. -/
def compactClaim (limit : Nat) (aName uName : String) (pushed : List Msg) : List Msg :=
  if 4 * totalLen pushed > 3 * limit then
    let keepCount := max 4 (limit / 1000)
    let kept := pushed.headI :: lastSlice keepCount pushed
    if 2 < kept.length then
      kept.headI :: (⟨"system", summaryContent aName uName⟩ : Msg) :: kept.tail
    else kept
  else pushed

/-- The greedy tail selection exactly as the specification sentence describes
trim-to-target: walk the tail from most recent to oldest, keep each message
while the cumulative word count stays ≤ `contextLimit * targetPercentage / 100`,
and stop at the first message whose addition would exceed it. -/
def keptTail (limit target : Nat) : List Msg → Nat → List Msg
  | [], _ => []
  | m :: ms, cur =>
    let mt := wordCount m.content
    if 100 * (cur + mt) ≤ limit * target then m :: keptTail limit target ms (cur + mt)
    else []

/-- Does the needle occur at the start of the haystack (character lists). -/
def startsWithList : List Char → List Char → Bool
  | [], _ => true
  | _ :: _, [] => false
  | a :: as, b :: bs => a = b && startsWithList as bs

/-- Does the needle occur anywhere in the haystack (character lists). -/
def occursIn (needle : List Char) : List Char → Bool
  | [] => startsWithList needle []
  | c :: t => startsWithList needle (c :: t) || occursIn needle t

/-- Substring test on strings. -/
def strContains (hay needle : String) : Bool := occursIn needle.data hay.data

/-- An assistant profile whose backstory embeds the fallback phrase. -/
def evilA : CharacterProfile := ⟨"A", [], "Basic AI assistant mode.", "", ""⟩

/-- The outcome of one call to the streaming inference backend: either a
normally terminating stream of fragments, or a stream that raises after
emitting some fragments (possibly none). -/
inductive InferenceOutcome where
  | ok (chunks : List String)
  | failure (chunks : List String) (err : String)

/-- An event sent to the WebSocket client during a turn. -/
inductive WsEvent where
  | chunk (content character : String)
  | errorPayload (err : String)
deriving DecidableEq

/-- One iteration of the `/ws` handler loop body for a non-empty message
(api.py lines 53-84): format the user message with the persona name, append
it, defensively re-insert the initial system message if the head is not a
system message, stream the inference outcome forwarding each fragment as a
chunk event, and on normal completion append the joined response as the
assistant turn; any exception (modelled: profile dereference on `None`, or
the backend raising mid-stream) is caught by the `except` clause which sends
an error payload and leaves the state as mutated so far. -/
def wsTurn (s : ChatState) (initSys : Msg) (message : String)
    (outcome : InferenceOutcome) : ChatState × List WsEvent :=
  match s.current_user_profile with
  | none => (s, [WsEvent.errorPayload "AttributeError"])
  | some u =>
    let step1 := add_to_conversation s "user" (u.name ++ ":\n" ++ message)
    if step1.2 then
      let s1 := step1.1
      let s2 := if s1.conversation.headI.role = "system" then s1
                else {s1 with conversation := initSys :: s1.conversation}
      match outcome with
      | InferenceOutcome.failure chunks err =>
        match s.current_assistant_profile with
        | none =>
          if chunks = [] then (s2, [WsEvent.errorPayload err])
          else (s2, [WsEvent.errorPayload "AttributeError"])
        | some a =>
          (s2, chunks.map (fun c => WsEvent.chunk c a.name) ++
            [WsEvent.errorPayload err])
      | InferenceOutcome.ok chunks =>
        match s.current_assistant_profile with
        | none => (s2, [WsEvent.errorPayload "AttributeError"])
        | some a =>
          let step2 := add_to_conversation s2 "assistant"
            (a.name ++ ":\n" ++ String.join chunks)
          if step2.2 then (step2.1, chunks.map (fun c => WsEvent.chunk c a.name))
          else (step2.1, chunks.map (fun c => WsEvent.chunk c a.name) ++
            [WsEvent.errorPayload "AttributeError"])
    else (step1.1, [WsEvent.errorPayload "AttributeError"])

/-! Concrete fixtures used by witnesses and counterexamples. -/

/-- A minimal assistant profile. -/
def tinyA : CharacterProfile := ⟨"A", [], "", "", ""⟩

/-- A second assistant-capable profile with a different name. -/
def tinyB : CharacterProfile := ⟨"B", [], "", "", ""⟩

/-- A minimal user profile. -/
def tinyU : CharacterProfile := ⟨"U", [], "", "", ""⟩

/-- State with both current profiles present, context limit 100, before init. -/
def baseBoth : ChatState :=
  { conversation := [], key_events := [],
    character_profiles := [("assistant", tinyA), ("ally", tinyB), ("user", tinyU)],
    current_assistant_profile := some tinyA, current_user_profile := some tinyU,
    context_limit := 100, message_count := 0, last_cleanup := 0 }

/-- `baseBoth` after a successful initialization. -/
def initBoth : ChatState := (initialize_conversation baseBoth).1

/-- State with no current profiles, context limit 100, before init. -/
def baseNone : ChatState :=
  { conversation := [], key_events := [], character_profiles := [],
    current_assistant_profile := none, current_user_profile := none,
    context_limit := 100, message_count := 0, last_cleanup := 0 }

/-- `baseNone` after a successful initialization: the fallback system message. -/
def initNone : ChatState := (initialize_conversation baseNone).1

/-- An 80-character message body. -/
def eightyChars : String := String.mk (List.replicate 80 'x')

/-- A small word-count buffer: 2-word system message, 3-word and 4-word turns,
word budget limit 10. -/
def wordsState : ChatState :=
  { conversation := [⟨"system", "s1 s2"⟩, ⟨"user", "u1 u2 u3"⟩,
      ⟨"assistant", "a1 a2 a3 a4"⟩],
    key_events := [], character_profiles := [],
    current_assistant_profile := none, current_user_profile := none,
    context_limit := 10, message_count := 0, last_cleanup := 0 }

/-- A 10-word system message. -/
def tenWordSys : Msg := ⟨"system", "w1 w2 w3 w4 w5 w6 w7 w8 w9 w10"⟩

/-- A buffer whose system message alone exceeds any 50% target of limit 10. -/
def overState : ChatState :=
  { conversation := [tenWordSys, ⟨"user", "hello there"⟩],
    key_events := [], character_profiles := [],
    current_assistant_profile := none, current_user_profile := none,
    context_limit := 10, message_count := 0, last_cleanup := 0 }

/-- A 4-message buffer with no stray system messages, both profiles present,
context limit 100; the next append pushes the total past the threshold. -/
def cleanState : ChatState :=
  { conversation := [⟨"system", "sys"⟩,
      ⟨"user", "aaaaaaaaaaaaaaaaaaaaaaaaa"⟩,
      ⟨"assistant", "bbbbbbbbbbbbbbbbbbbbbbbbb"⟩,
      ⟨"user", "ccccccccccccccccccccccccc"⟩],
    key_events := [], character_profiles := [],
    current_assistant_profile := some tinyA, current_user_profile := some tinyU,
    context_limit := 100, message_count := 0, last_cleanup := 0 }

/-- A state whose counter is 49 turns past the last cleanup. -/
def turn49State : ChatState :=
  { conversation := [⟨"system", "sys"⟩],
    key_events := [], character_profiles := [],
    current_assistant_profile := none, current_user_profile := none,
    context_limit := 5000, message_count := 49, last_cleanup := 0 }

theorem createSystemMessage_role (a u : Option CharacterProfile) (e : List String)
    (m : Msg) (h : createSystemMessage a u e = some m) : m.role = "system" := by
  cases a with
  | none => simp [createSystemMessage] at h; subst h; rfl
  | some a0 =>
    cases u with
    | none => simp [createSystemMessage] at h
    | some u0 => simp [createSystemMessage] at h; subst h; rfl

theorem createSystemMessage_isSome (a u : Option CharacterProfile) (e : List String)
    (h : a.isSome → u.isSome) : ∃ m, createSystemMessage a u e = some m := by
  cases a with
  | none => exact ⟨_, rfl⟩
  | some a0 =>
    cases u with
    | none => simp at h
    | some u0 => exact ⟨_, rfl⟩

theorem headI_append (l : List Msg) (x : Msg) (h : l ≠ []) :
    (l ++ [x]).headI = l.headI := by
  cases l with
  | nil => exact absurd rfl h
  | cons a t => rfl

theorem add_profiles_eq (s : ChatState) (role content : String) :
    (add_to_conversation s role content).1.current_assistant_profile
        = s.current_assistant_profile ∧
    (add_to_conversation s role content).1.current_user_profile
        = s.current_user_profile := by
  unfold add_to_conversation
  dsimp only
  split
  · split
    · split <;> exact ⟨rfl, rfl⟩
    · exact ⟨rfl, rfl⟩
  · exact ⟨rfl, rfl⟩

theorem add_preserves_inv (s : ChatState) (role content : String) (h : convInv s) :
    convInv (add_to_conversation s role content).1 := by
  obtain ⟨hne, hhd⟩ := h
  have hconv : (s.conversation ++ [(⟨role, profileContext s role content⟩ : Msg)]).headI
      = s.conversation.headI := headI_append _ _ hne
  unfold add_to_conversation
  dsimp only
  split
  · split
    · split
      · refine ⟨by simp [insertAfterHead], ?_⟩
        simpa [insertAfterHead, hconv] using hhd
      · refine ⟨by simp [insertAfterHead], ?_⟩
        simpa [insertAfterHead, hconv] using hhd
    · exact ⟨by simp, by simpa [hconv] using hhd⟩
  · exact ⟨by simp, by simpa [hconv] using hhd⟩

theorem trimLoop_cons (limit target : Nat) (l : List Msg) (h0 : Msg)
    (acc : List Msg) (cur : Nat) :
    ∃ t, trimLoop limit target l (h0 :: acc) cur = h0 :: t := by
  induction l generalizing acc cur with
  | nil => exact ⟨acc, rfl⟩
  | cons m ms ih =>
    unfold trimLoop
    dsimp only
    split
    · simpa [insertAfterHead] using ih (m :: acc) _
    · exact ⟨acc, rfl⟩

theorem step_preserves (s : ChatState) (op : Op) (h : convInv s) (hp : profilesOK s) :
    convInv (stepOp s op).1 ∧ profilesOK (stepOp s op).1 := by
  cases op with
  | clear =>
    obtain ⟨m, hm⟩ := createSystemMessage_isSome s.current_assistant_profile
      s.current_user_profile s.key_events hp
    have hrole := createSystemMessage_role _ _ _ _ hm
    refine ⟨?_, ?_⟩
    · simp only [stepOp, clear_conversation]
      rw [hm]
      exact ⟨by simp, by simpa using hrole⟩
    · simp only [stepOp, clear_conversation]
      rw [hm]
      exact hp
  | append role content =>
    refine ⟨add_preserves_inv s role content h, ?_⟩
    have hpe := add_profiles_eq s role content
    unfold profilesOK stepOp
    rw [hpe.1, hpe.2]
    exact hp
  | cleanup =>
    obtain ⟨hne, hhd⟩ := h
    constructor
    · simp only [stepOp, periodic_cleanup]
      split
      · cases hc : s.conversation with
        | nil => exact absurd hc hne
        | cons hd t =>
          simp only [hc]
          refine ⟨by simp, ?_⟩
          simpa [hc] using hhd
      · exact ⟨hne, hhd⟩
    · simp only [stepOp, periodic_cleanup]
      split
      · cases hc : s.conversation with
        | nil => exact hp
        | cons hd t => simp only [hc]; exact hp
      · exact hp
  | trim t =>
    obtain ⟨hne, hhd⟩ := h
    constructor
    · simp only [stepOp, trim_context]
      cases hc : s.conversation with
      | nil => exact absurd hc hne
      | cons sys rest =>
        obtain ⟨tl, htl⟩ := trimLoop_cons s.context_limit t rest.reverse sys []
          (wordCount sys.content)
        simp only [htl]
        refine ⟨by simp, ?_⟩
        simpa [hc] using hhd
    · simp only [stepOp, trim_context]
      cases hc : s.conversation with
      | nil => exact hp
      | cons sys rest => exact hp

theorem runOps_preserves (s : ChatState) (ops : List Op) (h : convInv s)
    (hp : profilesOK s) : convInv (runOps s ops) ∧ profilesOK (runOps s ops) := by
  induction ops generalizing s with
  | nil => exact ⟨h, hp⟩
  | cons op ops ih =>
    have hstep := step_preserves s op h hp
    simpa [runOps, List.foldl] using ih (stepOp s op).1 hstep.1 hstep.2

theorem initialize_success_inv (base s0 : ChatState)
    (hinit : initialize_conversation base = (s0, true)) :
    convInv s0 ∧ profilesOK s0 := by
  unfold initialize_conversation at hinit
  cases hm : createSystemMessage base.current_assistant_profile
      base.current_user_profile base.key_events with
  | none => rw [hm] at hinit; simp at hinit
  | some m =>
    rw [hm] at hinit
    have hs0 : s0 = {base with conversation := [m]} := by
      have := congrArg Prod.fst hinit
      simpa using this.symm
    subst hs0
    have hrole := createSystemMessage_role _ _ _ _ hm
    refine ⟨⟨by simp, by simpa using hrole⟩, ?_⟩
    intro ha
    cases hu : base.current_user_profile with
    | some u0 => rfl
    | none =>
      cases hA : base.current_assistant_profile with
      | none => rw [hA] at ha; simp at ha
      | some a0 => rw [hA, hu] at hm; simp [createSystemMessage] at hm

/-! Claim theorems. -/

/-- C2: for every sequence of Initialize/Clear, Append (with its implicit
compaction), periodic-cleanup, and explicit trim-to-target operations starting
from an initialized ConversationBuffer, the element at index 0 has role
`system` at every observable point, and the buffer is never empty. -/
theorem head_system_and_nonempty_invariant (base s0 : ChatState)
    (hinit : initialize_conversation base = (s0, true)) (ops : List Op) :
    (runOps s0 ops).conversation ≠ [] ∧
    (runOps s0 ops).conversation.headI.role = "system" := by
  have h0 := initialize_success_inv base s0 hinit
  exact (runOps_preserves s0 ops h0.1 h0.2).1

/-- C2 witness: the invariant instantiated on a concrete initialized state and
a concrete operation sequence exercising append, cleanup, trim and clear. -/
theorem head_system_and_nonempty_invariant_witness :
    (runOps initBoth [Op.append "user" "hi", Op.cleanup, Op.trim 50,
        Op.clear]).conversation ≠ [] ∧
    (runOps initBoth [Op.append "user" "hi", Op.cleanup, Op.trim 50,
        Op.clear]).conversation.headI.role = "system" :=
  head_system_and_nonempty_invariant baseBoth initBoth rfl
    [Op.append "user" "hi", Op.cleanup, Op.trim 50, Op.clear]

/-- C1: every `Append(role, rawContent)` on the buffer behaves exactly as the
claim's compaction policy `compactClaim` applied to the buffer extended with
the formatted message (stated for the normal mode in which both current
profiles are present, as required by the marker's persona names). -/
theorem append_follows_compaction_policy (s : ChatState) (role content : String)
    (a u : CharacterProfile)
    (ha : s.current_assistant_profile = some a)
    (hu : s.current_user_profile = some u) :
    add_to_conversation s role content =
      ({s with conversation := (compactClaim s.context_limit a.name u.name
          (s.conversation ++ [⟨role, profileContext s role content⟩]))}, true) := by
  unfold add_to_conversation compactClaim
  dsimp only
  split
  · split
    · rw [ha, hu]
      simp [insertAfterHead]
    · rfl
  · rfl

/-- C1 witness: the policy evaluated on a concrete state (context limit 100,
both profiles present) where the threshold is exceeded by the append. -/
theorem append_follows_compaction_policy_witness :
    add_to_conversation initBoth "user" "hi" =
      ({initBoth with conversation := (compactClaim initBoth.context_limit
          tinyA.name tinyU.name
          (initBoth.conversation ++
            [⟨"user", profileContext initBoth "user" "hi"⟩]))}, true) :=
  append_follows_compaction_policy initBoth "user" "hi" tinyA tinyU rfl rfl

set_option maxRecDepth 100000 in
/-- C3 counterexample: the claim that no element other than index 0 ever has
role `system` (except a marker immediately after index 0) is false: a single
Append on a freshly initialized buffer with both profiles present and context
limit 100 compacts a 2-element buffer with keep count 4, so the tail slice
re-includes the head system message, yielding a buffer whose element at
index 2 also has role `system`. -/
theorem stray_system_message_counterexample :
    ¬ (∀ (base s0 : ChatState), initialize_conversation base = (s0, true) →
        ∀ (ops : List Op) (i : Nat), 2 ≤ i →
          i < (runOps s0 ops).conversation.length →
          ((runOps s0 ops).conversation.getD i default).role ≠ "system") := by
  intro hclaim
  exact hclaim baseBoth initBoth rfl [Op.append "user" "hi"] 2 (by decide)
    (by decide) (by decide)

/-- C3 amended: during an Append-triggered compaction the synthetic marker is
the only system-role element introduced after index 0, and it sits at index 1
— provided the kept tail does not wrap around onto the head (keep count at
most the pre-append length) and the buffer held no stray system message
before; when the kept tail overlaps the head (or a previously retained
marker), duplicated system-role messages can appear at later indices. -/
theorem append_marker_only_at_index_one (s : ChatState) (role content : String)
    (a u : CharacterProfile)
    (ha : s.current_assistant_profile = some a)
    (hu : s.current_user_profile = some u)
    (hrole : role ≠ "system")
    (hclean : ∀ m ∈ s.conversation.tail, m.role ≠ "system")
    (hkeep : max 4 (s.context_limit / 1000) ≤ s.conversation.length) :
    ∀ m ∈ (add_to_conversation s role content).1.conversation.tail.tail,
      m.role ≠ "system" := by
  set new : Msg := ⟨role, profileContext s role content⟩ with hnew
  set pushed : List Msg := s.conversation ++ [new] with hpushed
  have hptail : ∀ m ∈ pushed.tail, m.role ≠ "system" := by
    cases hc : s.conversation with
    | nil =>
      exfalso
      rw [hc] at hkeep
      simp at hkeep
    | cons c0 crest =>
      intro m hm
      rw [hpushed, hc] at hm
      simp only [List.cons_append, List.tail_cons, List.mem_append,
        List.mem_singleton] at hm
      rcases hm with hm | hm
      · exact hclean m (by rw [hc]; exact hm)
      · rw [hm, hnew]; exact hrole
  have hslice : ∀ m ∈ lastSlice (max 4 (s.context_limit / 1000)) pushed,
      m.role ≠ "system" := by
    intro m hm
    apply hptail
    set k := max 4 (s.context_limit / 1000) with hkdef
    unfold lastSlice at hm
    have hlen : pushed.length = s.conversation.length + 1 := by
      rw [hpushed]; simp
    have hk1 : k ≤ s.conversation.length := hkeep
    have heq : pushed.drop (pushed.length - k) =
        (pushed.drop 1).drop (pushed.length - k - 1) := by
      rw [List.drop_drop]
      congr 1
      omega
    rw [heq] at hm
    have hm2 := List.drop_subset _ (pushed.drop 1) hm
    rw [List.drop_one] at hm2
    exact hm2
  unfold add_to_conversation
  dsimp only
  rw [← hnew, ← hpushed, ha, hu]
  split
  · split
    · intro m hm
      simp only [insertAfterHead, List.tail_cons] at hm
      exact hslice m hm
    · intro m hm
      simp only [List.tail_cons] at hm
      exact hslice m (List.tail_subset _ hm)
  · intro m hm
    exact hptail m (List.tail_subset _ hm)

/-- C3 amended witness: appending to a clean 4-message buffer (keep count 4 ≤
length 4) compacts with the marker at index 1 and no system role beyond it;
instantiated at the first retained tail message. -/
theorem append_marker_only_at_index_one_witness :
    (⟨"user", "aaaaaaaaaaaaaaaaaaaaaaaaa"⟩ : Msg).role ≠ "system" :=
  append_marker_only_at_index_one cleanState "user" "hi" tinyA tinyU rfl rfl
    (by decide) (by decide) (by decide)
    ⟨"user", "aaaaaaaaaaaaaaaaaaaaaaaaa"⟩ (by decide)

/-- C4 counterexample: the component does fail under normal input when persona
profiles are missing.  With the assistant profile present and the user profile
absent, compose dereferences the absent user profile and raises (modelled as
`none`); and an Append with both profiles absent fails once compaction fires
and the resulting buffer has more than 2 elements, because building the
summarization marker dereferences the absent profiles. -/
theorem missing_profiles_counterexample :
    createSystemMessage (some tinyA) none [] = none ∧
    (add_to_conversation initNone "user" eightyChars).2 = false := by
  constructor
  · rfl
  · decide

theorem profileContext_none (s : ChatState) (role content : String)
    (ha : s.current_assistant_profile = none) (hu : s.current_user_profile = none) :
    profileContext s role content = content := by
  unfold profileContext
  rw [ha, hu]
  by_cases h1 : role = "user"
  · subst h1; simp
  · by_cases h2 : role = "assistant"
    · subst h2; simp
    · simp [h1, h2]

/-- C4 amended: compose with an absent assistant profile returns the fallback
system message without error regardless of the user profile; compose with the
assistant profile present but the user profile absent raises (the f-string
dereferences the absent user profile — the user sub-block is never omitted);
Append with both profiles absent degrades the formatting to the raw content
and succeeds unless compaction fires with a resulting buffer longer than 2,
in which case the marker construction raises after the trim has already been
applied. -/
theorem missing_profiles_degradation :
    (∀ (up : Option CharacterProfile) (events : List String),
        createSystemMessage none up events =
          some ⟨"system", "Basic AI assistant mode."⟩) ∧
    (∀ (ap : CharacterProfile) (events : List String),
        createSystemMessage (some ap) none events = none) ∧
    (∀ (s : ChatState) (role content : String),
        s.current_assistant_profile = none → s.current_user_profile = none →
        add_to_conversation s role content =
          (let pushed := s.conversation ++ [⟨role, content⟩]
           if 4 * totalLen pushed > 3 * s.context_limit then
             let trimmed := pushed.headI ::
               lastSlice (max 4 (s.context_limit / 1000)) pushed
             ({s with conversation := trimmed},
              if 2 < trimmed.length then false else true)
           else ({s with conversation := pushed}, true))) := by
  refine ⟨fun up events => rfl, fun ap events => rfl, ?_⟩
  intro s role content ha hu
  unfold add_to_conversation
  rw [profileContext_none s role content ha hu, ha, hu]
  dsimp only
  split
  · split
    · rfl
    · rfl
  · rfl

/-- C4 amended witness: a small Append with both profiles absent that stays
under the threshold succeeds and extends the buffer with the raw content. -/
theorem missing_profiles_degradation_witness :
    add_to_conversation initNone "user" "hi" =
      ({initNone with conversation :=
          [⟨"system", "Basic AI assistant mode."⟩, ⟨"user", "hi"⟩]}, true) :=
  (missing_profiles_degradation.2.2 initNone "user" "hi" rfl rfl).trans (by decide)

theorem trimLoop_eq_keptTail (limit target : Nat) (l : List Msg) (h0 : Msg)
    (acc : List Msg) (cur : Nat) :
    trimLoop limit target l (h0 :: acc) cur =
      h0 :: ((keptTail limit target l cur).reverse ++ acc) := by
  induction l generalizing acc cur with
  | nil => simp [trimLoop, keptTail]
  | cons m ms ih =>
    unfold trimLoop keptTail
    dsimp only
    split
    · rw [show insertAfterHead (h0 :: acc) m = h0 :: m :: acc from rfl]
      rw [ih (m :: acc) _]
      simp
    · simp

theorem keptTail_isTake (limit target : Nat) (l : List Msg) (cur : Nat) :
    ∃ n, keptTail limit target l cur = l.take n := by
  induction l generalizing cur with
  | nil => exact ⟨0, rfl⟩
  | cons m ms ih =>
    unfold keptTail
    dsimp only
    split
    · obtain ⟨n, hn⟩ := ih (cur + wordCount m.content)
      exact ⟨n + 1, by rw [hn]; rfl⟩
    · exact ⟨0, rfl⟩

/-- C5: the explicit trim-to-target operation keeps the system message at
index 0 and equals the claim's greedy selection: scanning the tail from most
recent to oldest, keeping messages while the cumulative word count stays
within the target, stopping at the first that would exceed it; and the kept
messages form a suffix of the original tail in their original order. -/
theorem trim_context_matches_greedy (s : ChatState) (target : Nat) (sys : Msg)
    (rest : List Msg) (hconv : s.conversation = sys :: rest) :
    trim_context s target =
      ({s with conversation := (sys :: (keptTail s.context_limit target
          rest.reverse (wordCount sys.content)).reverse)}, true) ∧
    ∃ k, (trim_context s target).1.conversation = sys :: rest.drop k := by
  have hmain : trim_context s target =
      ({s with conversation := (sys :: (keptTail s.context_limit target
          rest.reverse (wordCount sys.content)).reverse)}, true) := by
    unfold trim_context
    rw [hconv]
    dsimp only
    rw [trimLoop_eq_keptTail]
    simp
  refine ⟨hmain, ?_⟩
  obtain ⟨n, hn⟩ := keptTail_isTake s.context_limit target rest.reverse
    (wordCount sys.content)
  refine ⟨rest.length - n, ?_⟩
  rw [hmain]
  dsimp only
  rw [hn, List.take_reverse, List.reverse_reverse]

/-- C5 witness: a concrete 3-message buffer with context limit 10 and target
80%: the most recent message (4 words) fits under the 8-word target on top of
the 2-word system message, the older one (3 words) would exceed it. -/
theorem trim_context_matches_greedy_witness :
    trim_context wordsState 80 =
      ({wordsState with conversation := (⟨"system", "s1 s2"⟩ ::
          (keptTail wordsState.context_limit 80
            [⟨"user", "u1 u2 u3"⟩, ⟨"assistant", "a1 a2 a3 a4"⟩].reverse
            (wordCount "s1 s2")).reverse)}, true) ∧
    ∃ k, (trim_context wordsState 80).1.conversation =
      ⟨"system", "s1 s2"⟩ :: ([⟨"user", "u1 u2 u3"⟩,
        ⟨"assistant", "a1 a2 a3 a4"⟩] : List Msg).drop k :=
  trim_context_matches_greedy wordsState 80 ⟨"system", "s1 s2"⟩
    [⟨"user", "u1 u2 u3"⟩, ⟨"assistant", "a1 a2 a3 a4"⟩] rfl

theorem keptTail_nil_of_over (limit target cur : Nat) (l : List Msg)
    (h : limit * target < 100 * cur) : keptTail limit target l cur = [] := by
  cases l with
  | nil => rfl
  | cons m ms =>
    unfold keptTail
    dsimp only
    rw [if_neg]
    omega

/-- C10: every trim-to-target call on a non-empty buffer keeps the original
system message as the sole element at index 0 of the result; the result is
never empty, and when the system message's own word count already exceeds
the target no tail message fits, so the result is exactly the single system
message. -/
theorem trim_context_retains_system_message (s : ChatState) (target : Nat)
    (sys : Msg) (rest : List Msg) (hconv : s.conversation = sys :: rest) :
    (trim_context s target).1.conversation.headI = sys ∧
    (trim_context s target).1.conversation ≠ [] ∧
    (s.context_limit * target < 100 * wordCount sys.content →
      (trim_context s target).1.conversation = [sys]) := by
  have hmain : (trim_context s target).1.conversation =
      sys :: (keptTail s.context_limit target rest.reverse
        (wordCount sys.content)).reverse := by
    unfold trim_context
    rw [hconv]
    dsimp only
    rw [trimLoop_eq_keptTail]
    simp
  refine ⟨by rw [hmain]; rfl, by rw [hmain]; simp, ?_⟩
  intro hover
  rw [hmain, keptTail_nil_of_over _ _ _ _ hover]
  rfl

/-- C10 witness: a system message of 10 words with context limit 10 and target
50% (5-word budget): the trim returns exactly the system message. -/
theorem trim_context_retains_system_message_witness :
    (trim_context overState 50).1.conversation.headI = tenWordSys ∧
    (trim_context overState 50).1.conversation ≠ [] ∧
    (trim_context overState 50).1.conversation = [tenWordSys] := by
  have h := trim_context_retains_system_message overState 50 tenWordSys
    [⟨"user", "hello there"⟩] rfl
  exact ⟨h.1, h.2.1, h.2.2 (by decide)⟩

/-- C6 counterexample: switching the current assistant profile to a different
stored profile via set_current_profiles does not regenerate buffer[0]: the
composer output for the new state differs from the (stale) head. -/
theorem profile_switch_stale_head_counterexample :
    ∃ m, createSystemMessage
        (set_current_profiles initBoth "user" "ally").current_assistant_profile
        (set_current_profiles initBoth "user" "ally").current_user_profile
        (set_current_profiles initBoth "user" "ally").key_events = some m ∧
      (set_current_profiles initBoth "user" "ally").conversation.headI ≠ m :=
  ⟨_, rfl, by decide⟩

/-- C6 amended: buffer[0] is regenerated by re-invoking the composer after
every successful add_key_event; set_current_profiles, however, changes only
the two current-profile pointers and leaves the conversation buffer
untouched — after a profile change the head is regenerated only when the
caller explicitly reinitializes the conversation (as the WebSocket handler
does at session start). -/
theorem head_regenerated_on_key_event_not_on_profile_switch :
    (∀ (s : ChatState) (event : String) (m c0 : Msg) (crest : List Msg),
        s.conversation = c0 :: crest →
        createSystemMessage s.current_assistant_profile s.current_user_profile
          (s.key_events ++ [event]) = some m →
        add_key_event s event =
          ({s with
              key_events := s.key_events ++ [event],
              conversation := m :: crest}, true)) ∧
    (∀ (s : ChatState) (ur ar : String),
        (set_current_profiles s ur ar).conversation = s.conversation) := by
  constructor
  · intro s event m c0 crest hconv hm
    unfold add_key_event
    dsimp only
    rw [hm, hconv]
  · intro s ur ar
    rfl

/-- C6 amended witness: adding a key event on the fallback-initialized state
regenerates the head through the composer and appends the event. -/
theorem head_regenerated_on_key_event_witness :
    add_key_event initNone "e" =
      ({initNone with
          key_events := (([] : List String) ++ ["e"]),
          conversation := [⟨"system", "Basic AI assistant mode."⟩]}, true) :=
  head_regenerated_on_key_event_not_on_profile_switch.1 initNone "e"
    ⟨"system", "Basic AI assistant mode."⟩
    ⟨"system", "Basic AI assistant mode."⟩ [] rfl rfl

/-- C8: periodic cleanup increments its counter once per completed turn; when
fewer than 50 turns have elapsed since the last cleanup the buffer is
untouched, and when at least 50 have elapsed the buffer is re-trimmed to
`[buffer[0]]` plus the last `max 4 (len / 4)` messages regardless of total
length, so after the 50th turn completion the length is at most
`max 4 (priorLength / 4) + 1`. -/
theorem periodic_cleanup_policy (s : ChatState) (c0 : Msg) (crest : List Msg)
    (hconv : s.conversation = c0 :: crest) :
    (s.message_count + 1 - s.last_cleanup < 50 →
      periodic_cleanup s = ({s with message_count := s.message_count + 1}, true)) ∧
    (50 ≤ s.message_count + 1 - s.last_cleanup →
      periodic_cleanup s =
        ({s with
            message_count := s.message_count + 1,
            last_cleanup := s.message_count + 1,
            conversation := (c0 :: lastSlice
              (max 4 (s.conversation.length / 4)) s.conversation)}, true) ∧
      (periodic_cleanup s).1.conversation.length ≤
        max 4 (s.conversation.length / 4) + 1) := by
  constructor
  · intro hlt
    unfold periodic_cleanup
    rw [if_neg (by dsimp only; omega)]
  · intro hge
    have heq : periodic_cleanup s =
        ({s with
            message_count := s.message_count + 1,
            last_cleanup := s.message_count + 1,
            conversation := (c0 :: lastSlice
              (max 4 (s.conversation.length / 4)) s.conversation)}, true) := by
      unfold periodic_cleanup
      rw [if_pos (by dsimp only; omega)]
      rw [hconv]
    refine ⟨heq, ?_⟩
    rw [heq]
    dsimp only
    unfold lastSlice
    rw [List.length_cons, List.length_drop]
    omega

/-- C8 witness: on a single-message buffer with counter 49 past the last
cleanup, the 50th turn completion fires the deep cleanup. -/
theorem periodic_cleanup_policy_witness :
    periodic_cleanup turn49State =
      ({turn49State with
          message_count := 50, last_cleanup := 50,
          conversation := (⟨"system", "sys"⟩ :: lastSlice
            (max 4 (turn49State.conversation.length / 4))
            turn49State.conversation)}, true) ∧
    (periodic_cleanup turn49State).1.conversation.length ≤
      max 4 (turn49State.conversation.length / 4) + 1 :=
  (periodic_cleanup_policy turn49State ⟨"system", "sys"⟩ [] rfl).2 (by decide)

theorem startsWithList_self_append (n q : List Char) :
    startsWithList n (n ++ q) = true := by
  induction n with
  | nil => rfl
  | cons a as ih => simp [startsWithList, ih]

theorem startsWithList_extend (n h1 h2 : List Char) (h : startsWithList n h1 = true) :
    startsWithList n (h1 ++ h2) = true := by
  induction n generalizing h1 with
  | nil => rfl
  | cons a as ih =>
    cases h1 with
    | nil => simp [startsWithList] at h
    | cons b bs =>
      simp [startsWithList] at h ⊢
      exact ⟨h.1, ih bs h.2⟩

theorem occursIn_self_append (n q : List Char) : occursIn n (n ++ q) = true := by
  cases n with
  | nil =>
    cases q with
    | nil => rfl
    | cons c t => rfl
  | cons a as =>
    show occursIn (a :: as) (a :: (as ++ q)) = true
    unfold occursIn
    have h1 := startsWithList_self_append (a :: as) q
    rw [show ((a :: as) ++ q) = a :: (as ++ q) from rfl] at h1
    simp [h1]

theorem occursIn_refl (n : List Char) : occursIn n n = true := by
  simpa using occursIn_self_append n []

theorem occursIn_append_left (n h1 h2 : List Char) (h : occursIn n h2 = true) :
    occursIn n (h1 ++ h2) = true := by
  induction h1 with
  | nil => simpa using h
  | cons c cs ih =>
    show occursIn n (c :: (cs ++ h2)) = true
    unfold occursIn
    rw [ih]
    simp

theorem occursIn_extend (n h1 h2 : List Char) (h : occursIn n h1 = true) :
    occursIn n (h1 ++ h2) = true := by
  induction h1 with
  | nil =>
    cases n with
    | nil =>
      cases h2 with
      | nil => rfl
      | cons c t => rfl
    | cons a as => simp [occursIn, startsWithList] at h
  | cons c cs ih =>
    show occursIn n (c :: (cs ++ h2)) = true
    unfold occursIn at h ⊢
    rcases (Bool.or_eq_true _ _).mp h with h' | h'
    · have hx := startsWithList_extend n (c :: cs) h2 h'
      rw [show ((c :: cs) ++ h2) = c :: (cs ++ h2) from rfl] at hx
      simp [hx]
    · simp [ih h']

theorem strContains_append_left (x y n : String) (h : strContains y n = true) :
    strContains (x ++ y) n = true := by
  unfold strContains at h ⊢
  rw [String.data_append]
  exact occursIn_append_left _ _ _ h

theorem strContains_append_right (x y n : String) (h : strContains x n = true) :
    strContains (x ++ y) n = true := by
  unfold strContains at h ⊢
  rw [String.data_append]
  exact occursIn_extend _ _ _ h

theorem strContains_refl (n : String) : strContains n n = true :=
  occursIn_refl n.data

theorem joinWith_contains (sep pre : String) (events : List String) (e : String)
    (he : e ∈ events) :
    strContains (joinWith sep (events.map (fun x => pre ++ x))) e = true := by
  induction events with
  | nil => cases he
  | cons x xs ih =>
    cases xs with
    | nil =>
      have hex : e = x := by simpa using he
      subst hex
      exact strContains_append_left pre e e (strContains_refl e)
    | cons y ys =>
      rcases List.mem_cons.mp he with hex | hexs
      · subst hex
        show strContains ((pre ++ e) ++ sep ++
          joinWith sep ((y :: ys).map (fun x => pre ++ x))) e = true
        apply strContains_append_right
        apply strContains_append_right
        exact strContains_append_left pre e e (strContains_refl e)
      · show strContains ((pre ++ x) ++ sep ++
          joinWith sep ((y :: ys).map (fun x => pre ++ x))) e = true
        exact strContains_append_left _ _ _ (ih hexs)

set_option maxRecDepth 100000 in
/-- C7 counterexample: the claim that the composed output never contains the
fallback phrase when the assistant profile is present is false: a profile
whose backstory embeds the phrase makes the output contain it. -/
theorem fallback_phrase_containment_counterexample :
    ∃ m, createSystemMessage (some evilA) (some tinyU) [] = some m ∧
      strContains m.content "Basic AI assistant mode." = true :=
  ⟨_, rfl, by decide⟩

/-- C7 amended: compose with an absent assistant profile yields exactly the
fixed fallback message regardless of user profile and memory log; with both
profiles present the output contains the assistant name, the user name and
every memory-log event, and is never equal to the fallback message (though it
can embed the fallback phrase when a profile field contains it); the memory
log renders as the fixed empty-log sentence when empty, else as one
bullet-prefixed line per event in order, newline-joined. -/
theorem composer_output_structure :
    (∀ (up : Option CharacterProfile) (events : List String),
        createSystemMessage none up events =
          some ⟨"system", "Basic AI assistant mode."⟩) ∧
    (∀ (a u : CharacterProfile) (events : List String) (m : Msg),
        createSystemMessage (some a) (some u) events = some m →
        strContains m.content a.name = true ∧
        strContains m.content u.name = true ∧
        (∀ e ∈ events, strContains m.content e = true) ∧
        m.content ≠ "Basic AI assistant mode.") ∧
    (formatKeyEvents [] = "No significant events yet." ∧
      ∀ events : List String, events ≠ [] →
        formatKeyEvents events = joinWith "\n" (events.map (fun e => "- " ++ e))) := by
  refine ⟨fun up events => rfl, ?_, rfl, fun events he => by simp [formatKeyEvents, he]⟩
  intro a u events m hm
  have hmc : m.content = "You are " ++ a.name
      ++ ". Fully embody this character:\n\n        Your Identity:\n        - Name: "
      ++ a.name ++ "\n        - Traits: " ++ joinWith ", " a.traits
      ++ "\n        - Backstory: " ++ a.backstory
      ++ "\n        - Goals: " ++ a.goals
      ++ "\n        - Personality: " ++ a.personality
      ++ "\n\n        Your Context:\n        - You are interacting with: " ++ u.name
      ++ "\n        - Their traits: " ++ joinWith ", " u.traits
      ++ "\n        - Their backstory: " ++ u.backstory
      ++ "\n        \n        Recent Events:\n        " ++ formatKeyEvents events
      ++ "\n\n        Stay completely in character, using all elements from your profile to shape your responses." := by
    have := hm.symm
    simp [createSystemMessage] at this
    rw [this]
  have hyou : strContains m.content "You are " = true := by
    rw [hmc]
    iterate 20 apply strContains_append_right
    exact strContains_refl _
  refine ⟨?_, ?_, ?_, ?_⟩
  · rw [hmc]
    iterate 19 apply strContains_append_right
    exact strContains_append_left _ _ _ (strContains_refl _)
  · rw [hmc]
    iterate 7 apply strContains_append_right
    exact strContains_append_left _ _ _ (strContains_refl _)
  · intro e he
    rw [hmc]
    apply strContains_append_right
    apply strContains_append_left
    have hne : events ≠ [] := by
      intro h0
      rw [h0] at he
      cases he
    rw [show formatKeyEvents events =
        joinWith "\n" (events.map (fun e => "- " ++ e)) from by
      simp [formatKeyEvents, hne]]
    exact joinWith_contains "\n" "- " events e he
  · intro heq
    rw [heq] at hyou
    exact absurd hyou (by decide)

/-- C7 amended witness: concrete composition with profiles named Rhea and Ana
and one remembered event. -/
theorem composer_output_structure_witness :
    strContains (createSystemMessage (some ⟨"Rhea", ["witty"], "B", "G", "P"⟩)
        (some ⟨"Ana", ["human"], "BB", "GG", "PP"⟩)
        ["met at the library"]).iget.content "Rhea" = true ∧
    strContains (createSystemMessage (some ⟨"Rhea", ["witty"], "B", "G", "P"⟩)
        (some ⟨"Ana", ["human"], "BB", "GG", "PP"⟩)
        ["met at the library"]).iget.content "met at the library" = true := by
  have h := composer_output_structure.2.1 ⟨"Rhea", ["witty"], "B", "G", "P"⟩
    ⟨"Ana", ["human"], "BB", "GG", "PP"⟩ ["met at the library"] _ rfl
  exact ⟨h.1, h.2.2.1 "met at the library" (by simp)⟩

/-- C9: when the inference backend raises (before starting or mid-stream), no
assistant message for that turn is appended: the post-turn buffer is exactly
the buffer after the user message was appended, the fragments emitted before
the failure have already been forwarded as chunk events, and the error is
surfaced as a structured error payload. -/
theorem generation_failure_appends_nothing (s : ChatState) (initSys : Msg)
    (message err : String) (chunks : List String) (a u : CharacterProfile)
    (ha : s.current_assistant_profile = some a)
    (hu : s.current_user_profile = some u)
    (hok : (add_to_conversation s "user" (u.name ++ ":\n" ++ message)).2 = true)
    (hhead : (add_to_conversation s "user"
        (u.name ++ ":\n" ++ message)).1.conversation.headI.role = "system") :
    wsTurn s initSys message (InferenceOutcome.failure chunks err) =
      ((add_to_conversation s "user" (u.name ++ ":\n" ++ message)).1,
       chunks.map (fun c => WsEvent.chunk c a.name) ++
         [WsEvent.errorPayload err]) := by
  unfold wsTurn
  rw [hu]
  dsimp only
  rw [hok]
  rw [if_pos hhead, ha]
  rfl

set_option maxRecDepth 100000 in
/-- C9 witness: a concrete failing turn after two emitted fragments on the
initialized two-profile state. -/
theorem generation_failure_appends_nothing_witness :
    wsTurn initBoth ⟨"system", "s"⟩ "hello"
        (InferenceOutcome.failure ["He", "llo"] "boom") =
      ((add_to_conversation initBoth "user" ("U" ++ ":\n" ++ "hello")).1,
       [WsEvent.chunk "He" "A", WsEvent.chunk "llo" "A",
        WsEvent.errorPayload "boom"]) := by
  have h := generation_failure_appends_nothing initBoth ⟨"system", "s"⟩ "hello"
    "boom" ["He", "llo"] tinyA tinyU rfl rfl (by decide) (by decide)
  simpa using h

end OllamaChat
